import Mathlib

/-!
Verification of the MatMethods repository fragment: the `MMVaspDb` result
store (`matmethods/vasp/database.py`) and the Raman-spectra workflow
assembler (`matmethods/vasp/workflows/base/raman.py`).

The database is modelled as a map from collection names to document lists
plus the index list of the primary task collection (the `MMVaspDb`
constructor's default collection name is `"tasks"`).  GridFS blob storage
is modelled as a map from collection names to stored values; the external
`zlib` compressor and decompressor are abstracted as function parameters.
The workflow assembler is modelled as a pure graph constructor whose node
identifiers are assigned in construction order.
-/

namespace MatMethods

/-- Scalar field values of the documents this fragment manipulates. -/
inductive BVal where
  | str (s : String)
  | int (n : Int)
deriving DecidableEq

/-- A document: an association list from field names to scalar values. -/
abbrev Doc := List (String × BVal)

/-- A MongoDB index specification: the ordered key list (field name paired
with direction, `1` for ascending and `-1` for descending) together with
the unique flag. -/
structure IndexSpec where
  keys : List (String × Int)
  unique : Bool
deriving DecidableEq

/-- State of the database as touched by `MMVaspDb`: the documents of every
named collection, and the index set of the primary task collection
(`self.collection`, default name `"tasks"`). -/
structure DbState where
  collections : String → List Doc
  indexes : List IndexSpec

/-- `collection.delete_many({})`: drop every document of the named collection. -/
def deleteMany (db : DbState) (c : String) : DbState :=
  { db with collections := fun n => if n = c then [] else db.collections n }

/-- `collection.delete_one(filter)`: remove the first document matching the
filter predicate. -/
def deleteOne (db : DbState) (c : String) (p : Doc → Bool) : DbState :=
  { db with collections := fun n =>
      if n = c then List.eraseP p (db.collections n) else db.collections n }

/-- `collection.insert_one(doc)`: append a document to the named collection. -/
def insertOne (db : DbState) (c : String) (d : Doc) : DbState :=
  { db with collections := fun n =>
      if n = c then db.collections n ++ [d] else db.collections n }

/-- `pymongo.ASCENDING`. -/
def ASCENDING : Int := 1

/-- `pymongo.DESCENDING`. -/
def DESCENDING : Int := -1

/-- `collection.create_index` on the task collection, with the driver's
create-if-absent semantics: an index specification already present is left
alone, a new one is appended. -/
def ensureIndex (l : List IndexSpec) (s : IndexSpec) : List IndexSpec :=
  if s ∈ l then l else l ++ [s]

/-- The default single-field index list of `MMVaspDb.build_indexes`. -/
def defaultIndexFields : List String :=
  ["formula_pretty", "formula_anonymous", "output.energy", "output.energy_per_atom"]

/-- The two compound `create_index` calls issued per formula field, in the
order the `for formula in ("formula_pretty", "formula_anonymous")` loop
issues them. -/
def compoundIndexCalls (formula : String) : List IndexSpec :=
  [⟨[(formula, ASCENDING), ("output.energy", DESCENDING),
     ("completed_at", DESCENDING)], false⟩,
   ⟨[(formula, ASCENDING), ("output.energy_per_atom", DESCENDING),
     ("completed_at", DESCENDING)], false⟩]

/-- The ordered sequence of `create_index` calls `MMVaspDb.build_indexes`
issues for a resolved single-field index list `_indices`: the unique
`task_id` index, one ascending single-field index per entry of `_indices`,
then the compound indexes for the two formula fields. -/
def indexCalls (_indices : List String) : List IndexSpec :=
  ⟨[("task_id", ASCENDING)], true⟩ ::
    (_indices.map (fun i => ⟨[(i, ASCENDING)], false⟩) ++
      (compoundIndexCalls "formula_pretty" ++ compoundIndexCalls "formula_anonymous"))

/-- The Python default resolution `_indices = indexes if indexes else [...]`
of `build_indexes`: both `None` and an empty list are falsy, so both are
replaced by the default field list. -/
def resolveIndices (indexes : Option (List String)) : List String :=
  match indexes with
  | some l => if l.isEmpty then defaultIndexFields else l
  | none => defaultIndexFields

/-- `MMVaspDb.build_indexes(indexes, background)`.  The `background` flag
only affects how the driver builds the indexes, not the resulting index
set. -/
def build_indexes (db : DbState) (indexes : Option (List String)) (background : Bool) : DbState :=
  { db with indexes := (indexCalls (resolveIndices indexes)).foldl ensureIndex db.indexes }

/-- The index set `build_indexes` leaves on the task collection. -/
theorem build_indexes_indexes (db : DbState) (o : Option (List String)) (b : Bool) :
    (build_indexes db o b).indexes = (indexCalls (resolveIndices o)).foldl ensureIndex db.indexes :=
  rfl

/-- The counter document `{_id: "taskid", c: 0}` reinserted by `reset`. -/
def counterDoc : Doc := [("_id", BVal.str "taskid"), ("c", BVal.int 0)]

/-- The filter `{"_id": "taskid"}` used on the counter collection. -/
def hasCounterId (d : Doc) : Bool := List.lookup "_id" d == some (BVal.str "taskid")

/-- `MMVaspDb.reset()`: clear the task collection, delete and reinsert the
counter document, clear the `boltztrap` collection and the `files`/`chunks`
sub-collections of `dos_fs`, `dos_boltztrap_fs` and `bandstructure_fs`,
then re-invoke `build_indexes()` (with its defaults). -/
def reset (db : DbState) : DbState :=
  let db := deleteMany db "tasks"
  let db := deleteOne db "counter" hasCounterId
  let db := insertOne db "counter" counterDoc
  let db := deleteMany db "boltztrap"
  let db := deleteMany db "dos_fs.files"
  let db := deleteMany db "dos_fs.chunks"
  let db := deleteMany db "dos_boltztrap_fs.files"
  let db := deleteMany db "dos_boltztrap_fs.chunks"
  let db := deleteMany db "bandstructure_fs.files"
  let db := deleteMany db "bandstructure_fs.chunks"
  build_indexes db none true

/-- The index set claimed by the specification for a default
`build_indexes` call, written out literally in the claimed order: a unique
ascending index on `task_id`, one ascending single-field index for each of
the four default fields, and the two compound indexes per formula field. -/
def expectedDefaultIndexes : List IndexSpec :=
  [⟨[("task_id", 1)], true⟩,
   ⟨[("formula_pretty", 1)], false⟩,
   ⟨[("formula_anonymous", 1)], false⟩,
   ⟨[("output.energy", 1)], false⟩,
   ⟨[("output.energy_per_atom", 1)], false⟩,
   ⟨[("formula_pretty", 1), ("output.energy", -1), ("completed_at", -1)], false⟩,
   ⟨[("formula_pretty", 1), ("output.energy_per_atom", -1), ("completed_at", -1)], false⟩,
   ⟨[("formula_anonymous", 1), ("output.energy", -1), ("completed_at", -1)], false⟩,
   ⟨[("formula_anonymous", 1), ("output.energy_per_atom", -1), ("completed_at", -1)], false⟩]

/-- A database with no documents and no indexes. -/
def emptyDb : DbState := { collections := fun _ => [], indexes := [] }

/-- Membership in `ensureIndex l s` for the ensured specification itself. -/
theorem mem_ensureIndex_self (l : List IndexSpec) (s : IndexSpec) : s ∈ ensureIndex l s := by
  unfold ensureIndex
  by_cases h : s ∈ l
  · simpa [h]
  · simp [h]

/-- `ensureIndex` never removes an index. -/
theorem mem_ensureIndex_of_mem (l : List IndexSpec) (s x : IndexSpec) (h : s ∈ l) :
    s ∈ ensureIndex l x := by
  unfold ensureIndex
  by_cases hx : x ∈ l
  · simpa [hx]
  · simp [hx, h]

/-- Folding `ensureIndex` over a call list never removes an index. -/
theorem mem_foldl_ensureIndex_of_mem (calls : List IndexSpec) (init : List IndexSpec)
    (s : IndexSpec) (h : s ∈ init) : s ∈ calls.foldl ensureIndex init := by
  induction calls generalizing init with
  | nil => simpa using h
  | cons c rest ih => exact ih (ensureIndex init c) (mem_ensureIndex_of_mem init s c h)

/-- Every issued `create_index` call leaves its index present afterwards. -/
theorem mem_foldl_ensureIndex_of_mem_calls (calls : List IndexSpec) (init : List IndexSpec)
    (s : IndexSpec) (h : s ∈ calls) : s ∈ calls.foldl ensureIndex init := by
  induction calls generalizing init with
  | nil => cases h
  | cons c rest ih =>
    rcases List.mem_cons.mp h with rfl | hrest
    · exact mem_foldl_ensureIndex_of_mem rest (ensureIndex init s) s (mem_ensureIndex_self init s)
    · exact ih (ensureIndex init c) hrest

set_option maxHeartbeats 2000000 in
/-- Claim C8: `build_indexes`, called with no explicit index list on a task
collection with no indexes yet, produces exactly the claimed index set: a
unique index on `task_id`, a single-field ascending index for each of
`formula_pretty`, `formula_anonymous`, `output.energy` and
`output.energy_per_atom`, and for each of the two formula fields the two
compound indexes `(formula ASC, output.energy DESC, completed_at DESC)`
and `(formula ASC, output.energy_per_atom DESC, completed_at DESC)`. -/
theorem build_indexes_default (db : DbState) (b : Bool) (h : db.indexes = []) :
    (build_indexes db none b).indexes = expectedDefaultIndexes := by
  rw [build_indexes_indexes, h]
  decide

/-- Witness for claim C8 at the empty database. -/
theorem build_indexes_default_witness :
    emptyDb.indexes = [] ∧ (build_indexes emptyDb none true).indexes = expectedDefaultIndexes :=
  ⟨rfl, build_indexes_default emptyDb true rfl⟩

/-- A document that could sit in the `boltztrap.files` sub-collection; the
repository's own `insert_gridfs(d, collection="boltztrap")` writes there. -/
def residueDoc : Doc := [("length", BVal.int 1)]

/-- A database whose `boltztrap.files` sub-collection holds one document. -/
def staleDb : DbState :=
  { collections := fun n => if n = "boltztrap.files" then [residueDoc] else [],
    indexes := [] }

set_option maxHeartbeats 2000000 in
/-- Claim C5 counterexample: `reset` does not delete the documents of the
`boltztrap.files` sub-collection, contradicting the claim that each of the
four auxiliary collections is cleared together with its paired
`files`/`chunks` sub-collections. -/
theorem reset_spares_boltztrap_files :
    (reset staleDb).collections "boltztrap.files" = [residueDoc] ∧ residueDoc ≠ [] := by
  constructor
  · rfl
  · decide

/-- If a predicate matches at most one element, erasing the first match
leaves no match. -/
theorem filter_eraseP_eq_nil (p : α → Bool) (l : List α) (h : l.countP p ≤ 1) :
    (List.eraseP p l).filter p = [] := by
  induction l with
  | nil => rfl
  | cons a rest ih =>
    by_cases ha : p a = true
    · rw [List.eraseP_cons_of_pos ha]
      rw [List.countP_cons, ha, if_pos rfl] at h
      have h0 : rest.countP p = 0 := by omega
      exact List.filter_eq_nil_iff.mpr (List.countP_eq_zero.mp h0)
    · rw [List.eraseP_cons_of_neg (by simpa using ha), List.filter_cons_of_neg (by simpa using ha)]
      rw [List.countP_cons, if_neg ha] at h
      exact ih (by omega)

/-- The index set after `reset` is the one `build_indexes` (at its
defaults) produces from the prior index set. -/
theorem reset_indexes_eq (db : DbState) :
    (reset db).indexes = (indexCalls (resolveIndices none)).foldl ensureIndex db.indexes := by
  simp only [reset, build_indexes, deleteMany, deleteOne, insertOne]

set_option maxHeartbeats 2000000 in
/-- Claim C5 (amended): `reset` empties the task collection, resets the
counter document to `{_id: "taskid", c: 0}`, empties the `boltztrap`
collection itself and the `files`/`chunks` sub-collections of `dos_fs`,
`dos_boltztrap_fs` and `bandstructure_fs` (but not `boltztrap.files` or
`boltztrap.chunks`), and re-invokes `build_indexes`, leaving every default
index in place.  The hypothesis is MongoDB's `_id`-uniqueness invariant on
the counter collection. -/
theorem reset_state (db : DbState)
    (h : (db.collections "counter").countP hasCounterId ≤ 1) :
    (reset db).collections "tasks" = [] ∧
    ((reset db).collections "counter").filter hasCounterId = [counterDoc] ∧
    (reset db).collections "boltztrap" = [] ∧
    (reset db).collections "dos_fs.files" = [] ∧
    (reset db).collections "dos_fs.chunks" = [] ∧
    (reset db).collections "dos_boltztrap_fs.files" = [] ∧
    (reset db).collections "dos_boltztrap_fs.chunks" = [] ∧
    (reset db).collections "bandstructure_fs.files" = [] ∧
    (reset db).collections "bandstructure_fs.chunks" = [] ∧
    expectedDefaultIndexes.all (fun s => (reset db).indexes.contains s) = true := by
  refine ⟨?_, ?_, ?_, ?_, ?_, ?_, ?_, ?_, ?_, ?_⟩
  · rfl
  · show (List.eraseP hasCounterId (db.collections "counter") ++ [counterDoc]).filter
        hasCounterId = [counterDoc]
    rw [List.filter_append, filter_eraseP_eq_nil hasCounterId (db.collections "counter") h]
    rfl
  · rfl
  · rfl
  · rfl
  · rfl
  · rfl
  · rfl
  · rfl
  · rw [List.all_eq_true]
    intro s hs
    have hall : ∀ x ∈ expectedDefaultIndexes, x ∈ indexCalls (resolveIndices none) := by decide
    have hmem : s ∈ (reset db).indexes := by
      rw [reset_indexes_eq]
      exact mem_foldl_ensureIndex_of_mem_calls _ _ s (hall s hs)
    exact List.elem_eq_true_of_mem hmem

set_option maxHeartbeats 2000000 in
/-- Witness for claim C5 at the empty database. -/
theorem reset_state_witness :
    (emptyDb.collections "counter").countP hasCounterId ≤ 1 ∧
    ((reset emptyDb).collections "tasks" = [] ∧
      ((reset emptyDb).collections "counter").filter hasCounterId = [counterDoc] ∧
      (reset emptyDb).collections "boltztrap" = [] ∧
      (reset emptyDb).collections "dos_fs.files" = [] ∧
      (reset emptyDb).collections "dos_fs.chunks" = [] ∧
      (reset emptyDb).collections "dos_boltztrap_fs.files" = [] ∧
      (reset emptyDb).collections "dos_boltztrap_fs.chunks" = [] ∧
      (reset emptyDb).collections "bandstructure_fs.files" = [] ∧
      (reset emptyDb).collections "bandstructure_fs.chunks" = [] ∧
      expectedDefaultIndexes.all (fun s => (reset emptyDb).indexes.contains s) = true) :=
  ⟨by decide, reset_state emptyDb (by decide)⟩

/-- A value stored in GridFS: either a byte string (as produced by
`zlib.compress(d.encode(), level)`) or an uncompressed text document
(`fs.put(d)` with `d` still a `str` when `compress` is false). -/
inductive GridVal where
  | bytes (b : List Nat)
  | text (s : String)
deriving DecidableEq

/-- GridFS blob storage: the stored values of every blob collection, in
insertion order; a value's identifier is its position. -/
structure GridStore where
  files : String → List GridVal

/-- The byte encoding `d.encode()` of a text document, modelled as the
list of character codes. -/
def encode (s : String) : List Nat := s.data.map Char.toNat

/-- `gridfs.GridFS(self.db, collection).put(data)`: append the value and
return its identifier. -/
def gridfs_put (g : GridStore) (coll : String) (v : GridVal) : GridStore × Nat :=
  (⟨fun n => if n = coll then g.files n ++ [v] else g.files n⟩, (g.files coll).length)

/-- `gridfs.GridFS(self.db, collection).get(fs_id)`. -/
def gridfs_get (g : GridStore) (coll : String) (i : Nat) : Option GridVal :=
  (g.files coll).get? i

/-- `MMVaspDb.insert_gridfs(d, collection, compress)`: when `compress` is
true the document is encoded and compressed (`comp` stands for
`zlib.compress(·, level)`), otherwise the document is stored as is; the
value is put into the named GridFS collection, and the pair
`(fs_id, "zlib")` is returned — the tag `"zlib"` is returned on both
branches. -/
def insert_gridfs (g : GridStore) (d : String) (collection : String) (compress : Bool)
    (comp : List Nat → List Nat) : GridStore × Nat × String :=
  let data : GridVal := if compress then GridVal.bytes (comp (encode d)) else GridVal.text d
  let pr := gridfs_put g collection data
  (pr.1, pr.2, "zlib")

/-- An empty GridFS store. -/
def emptyGrid : GridStore := ⟨fun _ => []⟩

/-- The retrieval-and-decompression step
`zlib.decompress(fs.get(fs_id).read())` of `get_band_structure`: read the
stored value's bytes and apply the decompressor `decomp`. -/
def get_blob_decompressed (g : GridStore) (coll : String) (fs_id : Nat)
    (decomp : List Nat → List Nat) : Option (List Nat) :=
  match gridfs_get g coll fs_id with
  | some (GridVal.bytes b) => some (decomp b)
  | some (GridVal.text s) => some (decomp (encode s))
  | none => none

/-- Claim C1: evaluating `insert_gridfs` at the failing input
`compress = false` shows the returned compression tag is `"zlib"`, not
`"none"`, although the data was stored uncompressed. -/
theorem insert_gridfs_tag_uncompressed :
    (insert_gridfs emptyGrid "abc" "fs" false (fun b => b)).2.2 = "zlib" ∧
      ("zlib" : String) ≠ "none" :=
  ⟨rfl, by decide⟩

/-- Claim C6: storing a document with `insert_gridfs(d, compress=true)`
and then retrieving the stored blob and decompressing it yields the byte
encoding of the original document, whenever the decompressor inverts the
compressor (the round-trip guarantee of the external `zlib` library). -/
theorem gridfs_get_put (g : GridStore) (coll : String) (v : GridVal) :
    gridfs_get (gridfs_put g coll v).1 coll (gridfs_put g coll v).2 = some v := by
  unfold gridfs_put gridfs_get
  simp [List.get?_eq_getElem?, List.getElem?_concat_length]

theorem insert_gridfs_roundtrip (g : GridStore) (coll d : String)
    (comp decomp : List Nat → List Nat) (h : ∀ b, decomp (comp b) = b) :
    get_blob_decompressed (insert_gridfs g d coll true comp).1 coll
      (insert_gridfs g d coll true comp).2.1 decomp = some (encode d) := by
  show get_blob_decompressed (gridfs_put g coll (GridVal.bytes (comp (encode d)))).1 coll
      (gridfs_put g coll (GridVal.bytes (comp (encode d)))).2 decomp = some (encode d)
  unfold get_blob_decompressed
  rw [gridfs_get_put g coll (GridVal.bytes (comp (encode d)))]
  show some (decomp (comp (encode d))) = some (encode d)
  rw [h]

/-- Witness for claim C6: the identity compressor and decompressor at a
concrete document and store. -/
theorem insert_gridfs_roundtrip_witness :
    get_blob_decompressed (insert_gridfs emptyGrid "ab" "fs" true (fun b => b)).1 "fs"
      (insert_gridfs emptyGrid "ab" "fs" true (fun b => b)).2.1 (fun b => b) =
      some (encode "ab") :=
  insert_gridfs_roundtrip emptyGrid "fs" "ab" (fun b => b) (fun b => b) (fun b => rfl)

/-- One entry of the `calcs_reversed` list of a Task Record, projected to
the only field `get_band_structure` reads; `none` models the absence of
the `bandstructure_fs_id` key. -/
structure CalcDoc where
  bandstructure_fs_id : Option Nat
deriving DecidableEq

/-- A Task Record as read by `get_band_structure`: its `task_id` and its
optional `calcs_reversed` list (`none` models the absence of the key, so
that the projected document raises `KeyError` when subscripted). -/
structure TaskDoc where
  task_id : Int
  calcs_reversed : Option (List CalcDoc)
deriving DecidableEq

/-- The Python errors the `get_band_structure` lookup path can raise, plus
the specification's `NotFoundError` (which the code never raises). -/
inductive PyErr where
  | typeError
  | keyError (k : String)
  | indexError
  | noFile
  | notFound
deriving DecidableEq

/-- The deserialized band-structure object: the line-mode variant
(`BandStructureSymmLine.from_dict`) or the general variant
(`BandStructure.from_dict`), each carrying the decompressed payload. -/
inductive BSObj where
  | line (payload : List Nat)
  | general (payload : List Nat)
deriving DecidableEq

/-- `self.collection.find_one({"task_id": task_id}, {"calcs_reversed": 1})`:
the first Task Record whose `task_id` matches. -/
def find_one (tasks : List TaskDoc) (tid : Int) : Option TaskDoc :=
  tasks.find? (fun t => t.task_id == tid)

/-- `MMVaspDb.get_band_structure(task_id, line_mode)`: look the Task Record
up, subscript `['calcs_reversed'][0]['bandstructure_fs_id']` (a missing
record is `None`, so subscripting it raises `TypeError`; a missing key
raises `KeyError`; an empty list raises `IndexError`), fetch the blob from
the `bandstructure_fs` GridFS collection, decompress it, and wrap the
payload in the line-mode or general variant. -/
def get_band_structure (tasks : List TaskDoc) (g : GridStore) (tid : Int)
    (line_mode : Bool) (decomp : List Nat → List Nat) : Except PyErr BSObj :=
  match find_one tasks tid with
  | none => Except.error PyErr.typeError
  | some t =>
    match t.calcs_reversed with
    | none => Except.error (PyErr.keyError "calcs_reversed")
    | some [] => Except.error PyErr.indexError
    | some (c :: _) =>
      match c.bandstructure_fs_id with
      | none => Except.error (PyErr.keyError "bandstructure_fs_id")
      | some fs_id =>
        match get_blob_decompressed g "bandstructure_fs" fs_id decomp with
        | none => Except.error PyErr.noFile
        | some bs_json =>
          if line_mode then Except.ok (BSObj.line bs_json) else Except.ok (BSObj.general bs_json)

/-- A Task Record carries no usable blob reference: the `calcs_reversed`
key is absent, or the list is empty, or its first entry lacks the
`bandstructure_fs_id` key. -/
def noBlobRef (t : TaskDoc) : Bool :=
  match t.calcs_reversed with
  | none => true
  | some [] => true
  | some (c :: _) => c.bandstructure_fs_id.isNone

/-- An error raised by the record-lookup path of `get_band_structure`:
`TypeError`, `KeyError` or `IndexError` — and in particular neither a
successful result nor `NotFoundError`. -/
def isLookupFailure : Except PyErr BSObj → Bool
  | Except.error PyErr.typeError => true
  | Except.error (PyErr.keyError _) => true
  | Except.error PyErr.indexError => true
  | _ => false

/-- Claim C2 counterexample: on an empty task collection the lookup fails
with `TypeError` (the fetched record is `None` and is subscripted), not
with `NotFoundError` as claimed. -/
theorem get_band_structure_absent_not_notFound :
    get_band_structure [] emptyGrid 0 false (fun b => b) = Except.error PyErr.typeError ∧
      (Except.error PyErr.typeError : Except PyErr BSObj) ≠ Except.error PyErr.notFound :=
  ⟨rfl, fun hc => PyErr.noConfusion (Except.error.inj hc)⟩

/-- Claim C2 (amended): whenever no Task Record with the given `task_id`
exists, or the found record carries no `calcs_reversed[0].bandstructure_fs_id`
blob reference, `get_band_structure` fails with `TypeError`, `KeyError` or
`IndexError` — an error, not a silent empty result, but never the
specification's `NotFoundError`. -/
theorem get_band_structure_missing_errors (tasks : List TaskDoc) (g : GridStore) (tid : Int)
    (line_mode : Bool) (decomp : List Nat → List Nat)
    (h : find_one tasks tid = none ∨
      ∃ t, find_one tasks tid = some t ∧ noBlobRef t = true) :
    get_band_structure tasks g tid line_mode decomp ≠ Except.error PyErr.notFound ∧
      isLookupFailure (get_band_structure tasks g tid line_mode decomp) = true := by
  have hfail : isLookupFailure (get_band_structure tasks g tid line_mode decomp) = true := by
    rcases h with hnone | ⟨t, ht, hb⟩
    · unfold get_band_structure
      rw [hnone]
      rfl
    · unfold get_band_structure
      rw [ht]
      cases t with
      | mk tid' cr =>
        cases cr with
        | none => rfl
        | some l =>
          cases l with
          | nil => rfl
          | cons c rest =>
            cases hc : c.bandstructure_fs_id with
            | none => simp [hc, isLookupFailure]
            | some fsid =>
              exfalso
              unfold noBlobRef at hb
              simp [hc, Option.isNone] at hb
  refine ⟨?_, hfail⟩
  intro hcontra
  rw [hcontra] at hfail
  exact Bool.noConfusion hfail

/-- Witness for claim C2 at an empty task collection. -/
theorem get_band_structure_missing_errors_witness :
    get_band_structure [] emptyGrid 7 true (fun b => b) ≠ Except.error PyErr.notFound ∧
      isLookupFailure (get_band_structure [] emptyGrid 7 true (fun b => b)) = true :=
  get_band_structure_missing_errors [] emptyGrid 7 true (fun b => b) (Or.inl rfl)

/-- A pymatgen structure, projected to the two attributes the assembler
reads: the number of sites (`len(structure)`) and the reduced chemical
formula (`structure.composition.reduced_formula`). -/
structure Structure where
  natoms : Nat
  reduced_formula : String
deriving DecidableEq

/-- The kind of a task-graph node, with the constructor arguments the
source passes: `OptimizeFW(..., ediffg=-0.05, ...)`, `LepsFW(...,
phonon=..., mode=..., displacement=...)` (the phonon node passes no mode
or displacement), and the analysis Firework wrapping
`RamanSusceptibilityTensorToDbTask`. -/
inductive FWKind where
  | optimize (ediffg : ℚ)
  | leps (phonon : Bool) (mode : Option Nat) (displacement : Option ℚ)
  | analysis
deriving DecidableEq

/-- A Firework of the assembled workflow: its identifier (assigned in
construction order), its kind, the identifiers of its parents, and the
remaining constructor arguments the source passes through. -/
structure FW where
  fw_id : Nat
  kind : FWKind
  parents : List Nat
  struct : Option Structure
  vasp_cmd : Option String
  db_file : Option String
  name : Option String
deriving DecidableEq

/-- The assembled workflow: its Fireworks in construction order and its
name. -/
structure Workflow where
  fws : List FW
  name : String
deriving DecidableEq

/-- The Python default resolution `modes = modes or range(3*len(structure))`:
`None` and the empty list are falsy, so both are replaced by all `3N` mode
indices. -/
def effModes (s : Structure) (modes : Option (List Nat)) : List Nat :=
  match modes with
  | none => List.range (3 * s.natoms)
  | some ms => if ms.isEmpty then List.range (3 * s.natoms) else ms

/-- The `(mode, displacement)` pairs enumerated by the nested loops
`for mode in modes: for disp in [-step_size, step_size]:`. -/
def ramanPairs (modes : List Nat) (step_size : ℚ) : List (Nat × ℚ) :=
  match modes with
  | [] => []
  | m :: rest => [(m, -step_size), (m, step_size)] ++ ramanPairs rest step_size

/-- The displaced-static Fireworks `fws_nm_disp`, one
`LepsFW(structure, parents=fw_leps, ..., phonon=True, mode=mode,
displacement=disp)` per `(mode, displacement)` pair, with identifiers
assigned consecutively from `nextId` (the phonon node has identifier 1). -/
def mkDisplacedFWs (s : Structure) (vasp_cmd : String) (db_file : Option String)
    (pairs : List (Nat × ℚ)) (nextId : Nat) : List FW :=
  match pairs with
  | [] => []
  | (m, d) :: rest =>
    { fw_id := nextId, kind := FWKind.leps true (some m) (some d), parents := [1],
      struct := some s, vasp_cmd := some vasp_cmd, db_file := db_file, name := none } ::
    mkDisplacedFWs s vasp_cmd db_file rest (nextId + 1)

/-- `get_wf_raman_spectra(structure, modes, step_size, vasp_cmd, db_file)`:
the optimization node, the phonon (normal-mode static) node depending on
it, one displaced-static node per `(mode, displacement)` pair depending on
the phonon node, and the analysis node depending on all displaced-static
nodes, packaged into a named workflow. -/
def get_wf_raman_spectra (s : Structure) (modes : Option (List Nat)) (step_size : ℚ)
    (vasp_cmd : String) (db_file : Option String) : Workflow :=
  let modes' := effModes s modes
  let fw_opt : FW :=
    { fw_id := 0, kind := FWKind.optimize (-(1/20 : ℚ)), parents := [],
      struct := some s, vasp_cmd := some vasp_cmd, db_file := db_file, name := none }
  let fw_leps : FW :=
    { fw_id := 1, kind := FWKind.leps true none none, parents := [0],
      struct := some s, vasp_cmd := some vasp_cmd, db_file := db_file, name := none }
  let pairs := ramanPairs modes' step_size
  let fws_nm_disp := mkDisplacedFWs s vasp_cmd db_file pairs 2
  let fw_analysis : FW :=
    { fw_id := 2 + pairs.length, kind := FWKind.analysis,
      parents := fws_nm_disp.map FW.fw_id, struct := none, vasp_cmd := none,
      db_file := db_file, name := some (s.reduced_formula ++ "-raman analysis") }
  { fws := [fw_opt, fw_leps] ++ fws_nm_disp ++ [fw_analysis],
    name := s.reduced_formula ++ ":raman spectra" }

/-- The node is the structure-optimization node. -/
def isOptimizeKind : FWKind → Bool
  | FWKind.optimize _ => true
  | _ => false

/-- The node is the phonon (normal-mode static) node: a `LepsFW` with no
mode or displacement tag. -/
def isPhononKind : FWKind → Bool
  | FWKind.leps _ none none => true
  | _ => false

/-- The node is a displaced-static node: a `LepsFW` tagged with a mode and
a displacement. -/
def isDisplacedKind : FWKind → Bool
  | FWKind.leps _ (some _) (some _) => true
  | _ => false

/-- The node is the analysis node. -/
def isAnalysisKind : FWKind → Bool
  | FWKind.analysis => true
  | _ => false

theorem ramanPairs_length (modes : List Nat) (step_size : ℚ) :
    (ramanPairs modes step_size).length = 2 * modes.length := by
  induction modes with
  | nil => rfl
  | cons m rest ih =>
    show ((m, -step_size) :: (m, step_size) :: ramanPairs rest step_size).length = _
    simp [List.length_cons, ih]
    ring

theorem mkDisplacedFWs_length (s : Structure) (c : String) (dbf : Option String)
    (pairs : List (Nat × ℚ)) (n : Nat) :
    (mkDisplacedFWs s c dbf pairs n).length = pairs.length := by
  induction pairs generalizing n with
  | nil => rfl
  | cons p rest ih =>
    cases p with
    | mk m d => simp [mkDisplacedFWs, ih]

theorem mem_mkDisplacedFWs (s : Structure) (c : String) (dbf : Option String)
    (pairs : List (Nat × ℚ)) (n : Nat) (fw : FW)
    (hmem : fw ∈ mkDisplacedFWs s c dbf pairs n) :
    (∃ m d, (m, d) ∈ pairs ∧ fw.kind = FWKind.leps true (some m) (some d)) ∧
      fw.parents = [1] ∧ n ≤ fw.fw_id := by
  induction pairs generalizing n with
  | nil => cases hmem
  | cons p rest ih =>
    cases p with
    | mk m d =>
      rcases List.mem_cons.mp hmem with rfl | htail
      · exact ⟨⟨m, d, List.mem_cons_self _ _, rfl⟩, rfl, Nat.le_refl n⟩
      · obtain ⟨⟨m', d', hp, hk⟩, hpar, hid⟩ := ih (n + 1) htail
        exact ⟨⟨m', d', List.mem_cons_of_mem _ hp, hk⟩, hpar, Nat.le_of_succ_le hid⟩

theorem mkDisplacedFWs_countP_disp (s : Structure) (c : String) (dbf : Option String)
    (pairs : List (Nat × ℚ)) (n : Nat) :
    (mkDisplacedFWs s c dbf pairs n).countP (fun fw => isDisplacedKind fw.kind) =
      pairs.length := by
  rw [← mkDisplacedFWs_length s c dbf pairs n]
  refine List.countP_eq_length.mpr (fun fw hmem => ?_)
  obtain ⟨⟨m, d, _, hk⟩, _, _⟩ := mem_mkDisplacedFWs s c dbf pairs n fw hmem
  simp [hk, isDisplacedKind]

theorem mkDisplacedFWs_countP_opt (s : Structure) (c : String) (dbf : Option String)
    (pairs : List (Nat × ℚ)) (n : Nat) :
    (mkDisplacedFWs s c dbf pairs n).countP (fun fw => isOptimizeKind fw.kind) = 0 := by
  refine List.countP_eq_zero.mpr (fun fw hmem => ?_)
  obtain ⟨⟨m, d, _, hk⟩, _, _⟩ := mem_mkDisplacedFWs s c dbf pairs n fw hmem
  simp [hk, isOptimizeKind]

theorem mkDisplacedFWs_countP_phonon (s : Structure) (c : String) (dbf : Option String)
    (pairs : List (Nat × ℚ)) (n : Nat) :
    (mkDisplacedFWs s c dbf pairs n).countP (fun fw => isPhononKind fw.kind) = 0 := by
  refine List.countP_eq_zero.mpr (fun fw hmem => ?_)
  obtain ⟨⟨m, d, _, hk⟩, _, _⟩ := mem_mkDisplacedFWs s c dbf pairs n fw hmem
  simp [hk, isPhononKind]

theorem mkDisplacedFWs_countP_analysis (s : Structure) (c : String) (dbf : Option String)
    (pairs : List (Nat × ℚ)) (n : Nat) :
    (mkDisplacedFWs s c dbf pairs n).countP (fun fw => isAnalysisKind fw.kind) = 0 := by
  refine List.countP_eq_zero.mpr (fun fw hmem => ?_)
  obtain ⟨⟨m, d, _, hk⟩, _, _⟩ := mem_mkDisplacedFWs s c dbf pairs n fw hmem
  simp [hk, isAnalysisKind]

theorem mkDisplacedFWs_map_id (s : Structure) (c : String) (dbf : Option String)
    (pairs : List (Nat × ℚ)) (n : Nat) :
    (mkDisplacedFWs s c dbf pairs n).map FW.fw_id = List.range' n pairs.length := by
  induction pairs generalizing n with
  | nil => rfl
  | cons p rest ih =>
    cases p with
    | mk m d =>
      show n :: (mkDisplacedFWs s c dbf rest (n + 1)).map FW.fw_id = List.range' n (rest.length + 1)
      rw [List.range'_succ, ih (n + 1)]

/-- The node list of the assembled workflow, spelled out: the optimization
node, the phonon node, the displaced-static nodes, and the analysis node,
in construction order. -/
theorem get_wf_fws_eq (s : Structure) (modes : Option (List Nat)) (step_size : ℚ)
    (cmd : String) (dbf : Option String) :
    (get_wf_raman_spectra s modes step_size cmd dbf).fws =
      [{ fw_id := 0, kind := FWKind.optimize (-(1/20 : ℚ)), parents := [],
         struct := some s, vasp_cmd := some cmd, db_file := dbf, name := none },
       { fw_id := 1, kind := FWKind.leps true none none, parents := [0],
         struct := some s, vasp_cmd := some cmd, db_file := dbf, name := none }] ++
      mkDisplacedFWs s cmd dbf (ramanPairs (effModes s modes) step_size) 2 ++
      [{ fw_id := 2 + (ramanPairs (effModes s modes) step_size).length,
         kind := FWKind.analysis,
         parents := (mkDisplacedFWs s cmd dbf (ramanPairs (effModes s modes) step_size) 2).map
           FW.fw_id,
         struct := none, vasp_cmd := none, db_file := dbf,
         name := some (s.reduced_formula ++ "-raman analysis") }] := rfl

/-- Claim C3: with no modes override, the workflow has exactly `6N + 3`
nodes for an `N`-atom structure: one optimization node, one phonon node,
`2·3N` displaced-static nodes and one analysis node. -/
theorem raman_wf_node_count (s : Structure) (step_size : ℚ) (cmd : String)
    (dbf : Option String) :
    ((get_wf_raman_spectra s none step_size cmd dbf).fws.length = 6 * s.natoms + 3) ∧
    ((get_wf_raman_spectra s none step_size cmd dbf).fws.countP
        (fun fw => isOptimizeKind fw.kind) = 1) ∧
    ((get_wf_raman_spectra s none step_size cmd dbf).fws.countP
        (fun fw => isPhononKind fw.kind) = 1) ∧
    ((get_wf_raman_spectra s none step_size cmd dbf).fws.countP
        (fun fw => isDisplacedKind fw.kind) = 2 * (3 * s.natoms)) ∧
    ((get_wf_raman_spectra s none step_size cmd dbf).fws.countP
        (fun fw => isAnalysisKind fw.kind) = 1) := by
  have hmodes : effModes s none = List.range (3 * s.natoms) := rfl
  have hplen : (ramanPairs (effModes s none) step_size).length = 2 * (3 * s.natoms) := by
    rw [hmodes, ramanPairs_length, List.length_range]
  refine ⟨?_, ?_, ?_, ?_, ?_⟩
  · rw [get_wf_fws_eq]
    simp only [List.length_append, List.length_cons, List.length_nil,
      mkDisplacedFWs_length, hplen]
    omega
  · rw [get_wf_fws_eq, List.countP_append, List.countP_append, mkDisplacedFWs_countP_opt]
    simp [isOptimizeKind, List.countP_cons]
  · rw [get_wf_fws_eq, List.countP_append, List.countP_append, mkDisplacedFWs_countP_phonon]
    simp [isPhononKind, List.countP_cons]
  · rw [get_wf_fws_eq, List.countP_append, List.countP_append, mkDisplacedFWs_countP_disp,
      hplen]
    simp [isDisplacedKind, List.countP_cons]
  · rw [get_wf_fws_eq, List.countP_append, List.countP_append, mkDisplacedFWs_countP_analysis]
    simp [isAnalysisKind, List.countP_cons]

theorem mkDisplacedFWs_filter_disp (s : Structure) (c : String) (dbf : Option String)
    (pairs : List (Nat × ℚ)) (n : Nat) :
    (mkDisplacedFWs s c dbf pairs n).filter (fun fw => isDisplacedKind fw.kind) =
      mkDisplacedFWs s c dbf pairs n :=
  List.filter_eq_self.mpr (fun fw hmem => by
    obtain ⟨⟨m, d, _, hk⟩, _, _⟩ := mem_mkDisplacedFWs s c dbf pairs n fw hmem
    simp [hk, isDisplacedKind])

/-- The displaced-static nodes of the assembled workflow are exactly
`fws_nm_disp`. -/
theorem get_wf_filter_disp (s : Structure) (modes : Option (List Nat)) (step_size : ℚ)
    (cmd : String) (dbf : Option String) :
    (get_wf_raman_spectra s modes step_size cmd dbf).fws.filter
        (fun fw => isDisplacedKind fw.kind) =
      mkDisplacedFWs s cmd dbf (ramanPairs (effModes s modes) step_size) 2 := by
  rw [get_wf_fws_eq, List.filter_append, List.filter_append, mkDisplacedFWs_filter_disp]
  simp [isDisplacedKind, List.filter_cons]

/-- The per-node dependency conditions of the claim: the optimization node
has no parents, the phonon node's sole parent is node 0, every
displaced-static node's sole parent is node 1, the analysis node's parents
are exactly the displaced-static nodes, node 0 is the optimization node
and node 1 is the phonon node. -/
def fwCheck (wf : Workflow) (fw : FW) : Bool :=
  (!(isOptimizeKind fw.kind) || decide (fw.parents = [])) &&
  (!(isPhononKind fw.kind) || decide (fw.parents = [0])) &&
  (!(isDisplacedKind fw.kind) || decide (fw.parents = [1])) &&
  (!(isAnalysisKind fw.kind) ||
    decide (fw.parents = (wf.fws.filter (fun x => isDisplacedKind x.kind)).map FW.fw_id)) &&
  (!(decide (fw.fw_id = 0)) || isOptimizeKind fw.kind) &&
  (!(decide (fw.fw_id = 1)) || isPhononKind fw.kind)

/-- Every node of the workflow satisfies the dependency conditions. -/
def wfParentsOk (wf : Workflow) : Bool := wf.fws.all (fwCheck wf)

/-- Claim C4: in every assembled workflow the optimize node has no
parents, the phonon node's sole parent is the optimize node, every
displaced-static node's sole parent is the phonon node, and the analysis
node's parent set is exactly the set of displaced-static nodes. -/
theorem raman_wf_parents (s : Structure) (modes : Option (List Nat)) (step_size : ℚ)
    (cmd : String) (dbf : Option String) :
    wfParentsOk (get_wf_raman_spectra s modes step_size cmd dbf) = true := by
  unfold wfParentsOk
  rw [List.all_eq_true]
  intro fw hmem
  rw [get_wf_fws_eq] at hmem
  unfold fwCheck
  rw [get_wf_filter_disp, mkDisplacedFWs_map_id]
  rcases List.mem_append.mp hmem with hleft | hright
  · rcases List.mem_append.mp hleft with hpre | hdisp
    · rcases List.mem_cons.mp hpre with rfl | hpre2
      · simp [isOptimizeKind, isPhononKind, isDisplacedKind, isAnalysisKind]
      · rcases List.mem_cons.mp hpre2 with rfl | habs
        · simp [isOptimizeKind, isPhononKind, isDisplacedKind, isAnalysisKind]
        · cases habs
    · obtain ⟨⟨m, d, _, hk⟩, hpar, hid⟩ :=
        mem_mkDisplacedFWs s cmd dbf (ramanPairs (effModes s modes) step_size) 2 fw hdisp
      have h0 : fw.fw_id ≠ 0 := by omega
      have h1 : fw.fw_id ≠ 1 := by omega
      simp [hk, hpar, h0, h1, isOptimizeKind, isPhononKind, isDisplacedKind, isAnalysisKind]
  · rcases List.mem_singleton.mp hright with rfl
    rw [mkDisplacedFWs_map_id]
    simp [isOptimizeKind, isPhononKind, isDisplacedKind, isAnalysisKind]
    omega

theorem mkDisplacedFWs_countP_tag (s : Structure) (c : String) (dbf : Option String)
    (pairs : List (Nat × ℚ)) (n : Nat) (m : Nat) (d : ℚ) :
    (mkDisplacedFWs s c dbf pairs n).countP
        (fun fw => decide (fw.kind = FWKind.leps true (some m) (some d))) =
      pairs.countP (fun p => decide (p = (m, d))) := by
  induction pairs generalizing n with
  | nil => rfl
  | cons p rest ih =>
    cases p with
    | mk m' d' =>
      rw [show mkDisplacedFWs s c dbf ((m', d') :: rest) n =
        { fw_id := n, kind := FWKind.leps true (some m') (some d'), parents := [1],
          struct := some s, vasp_cmd := some c, db_file := dbf, name := none } ::
        mkDisplacedFWs s c dbf rest (n + 1) from rfl]
      rw [List.countP_cons, List.countP_cons, ih (n + 1)]
      by_cases hp : (m', d') = (m, d)
      · have hm : m' = m := congrArg Prod.fst hp
        have hd : d' = d := congrArg Prod.snd hp
        subst hm; subst hd
        simp
      · have hk : ¬(FWKind.leps true (some m') (some d') =
            FWKind.leps true (some m) (some d)) := by
          intro hcon
          apply hp
          injection hcon with h1 h2 h3
          rw [Option.some.injEq] at h2 h3
          rw [h2, h3]
        simp [hp, hk]

theorem ramanPairs_countP_not_mem (ms : List Nat) (step_size : ℚ) (m : Nat) (d : ℚ)
    (hm : ¬ m ∈ ms) :
    (ramanPairs ms step_size).countP (fun p => decide (p = (m, d))) = 0 := by
  induction ms with
  | nil => rfl
  | cons m' rest ih =>
    have hm' : ¬ m' = m := fun hcon => hm (hcon ▸ List.mem_cons_self m' rest)
    have hrest : ¬ m ∈ rest := fun hcon => hm (List.mem_cons_of_mem m' hcon)
    show List.countP _ ((m', -step_size) :: (m', step_size) :: ramanPairs rest step_size) = 0
    rw [List.countP_cons, List.countP_cons, ih hrest]
    have hp1 : ¬((m', -step_size) = (m, d)) := fun hcon => hm' (congrArg Prod.fst hcon)
    have hp2 : ¬((m', step_size) = (m, d)) := fun hcon => hm' (congrArg Prod.fst hcon)
    simp [hp1, hp2]

theorem ramanPairs_countP_mem (ms : List Nat) (step_size : ℚ) (m : Nat) (d : ℚ)
    (hnd : ms.Nodup) (hm : m ∈ ms) (hd : d = -step_size ∨ d = step_size)
    (hne : ¬(-step_size = step_size)) :
    (ramanPairs ms step_size).countP (fun p => decide (p = (m, d))) = 1 := by
  induction ms with
  | nil => cases hm
  | cons m' rest ih =>
    have hnotmem : ¬ m' ∈ rest := (List.nodup_cons.mp hnd).1
    have hndrest : rest.Nodup := (List.nodup_cons.mp hnd).2
    show List.countP _ ((m', -step_size) :: (m', step_size) :: ramanPairs rest step_size) = 1
    rw [List.countP_cons, List.countP_cons]
    rcases List.mem_cons.mp hm with rfl | hmrest
    · rw [ramanPairs_countP_not_mem rest step_size m d hnotmem]
      rcases hd with hd1 | hd2
      · have hp2 : ¬((m, step_size) = (m, d)) := by
          intro hcon
          have hsnd : step_size = d := congrArg Prod.snd hcon
          rw [hd1] at hsnd
          exact hne hsnd.symm
        have hp1 : (m, -step_size) = (m, d) := by rw [hd1]
        simp [hp1, hp2]
      · have hp1 : ¬((m, -step_size) = (m, d)) := by
          intro hcon
          have hsnd : -step_size = d := congrArg Prod.snd hcon
          rw [hd2] at hsnd
          exact hne hsnd
        have hp2 : (m, step_size) = (m, d) := by rw [hd2]
        simp [hp1, hp2]
    · have hm' : ¬ m' = m := fun hcon => hnotmem (hcon ▸ hmrest)
      have hp1 : ¬((m', -step_size) = (m, d)) := fun hcon => hm' (congrArg Prod.fst hcon)
      have hp2 : ¬((m', step_size) = (m, d)) := fun hcon => hm' (congrArg Prod.fst hcon)
      rw [ih hndrest hmrest]
      simp [hp1, hp2]

/-- The count, over the whole workflow, of displaced-static nodes tagged
with a given `(mode, displacement)` pair equals the count of that pair in
the enumerated pair list. -/
theorem get_wf_countP_tag (s : Structure) (modes : Option (List Nat)) (step_size : ℚ)
    (cmd : String) (dbf : Option String) (m : Nat) (d : ℚ) :
    (get_wf_raman_spectra s modes step_size cmd dbf).fws.countP
        (fun fw => decide (fw.kind = FWKind.leps true (some m) (some d))) =
      (ramanPairs (effModes s modes) step_size).countP (fun p => decide (p = (m, d))) := by
  rw [get_wf_fws_eq, List.countP_append, List.countP_append, mkDisplacedFWs_countP_tag]
  rw [List.countP_cons, List.countP_cons, List.countP_cons, List.countP_nil]
  simp

/-- The per-node conditions of claim C7 on a workflow assembled from the
mode list `ms`: for each mode and each displacement sign exactly one
displaced-static node carries that tag; there are `2·|ms|` displaced-static
nodes; every displaced-static node's sole parent is node 1 and its
identifier is at least 2 (so no displaced-static node is a parent of
another); and node 1 is the phonon node. -/
def displacedOk (wf : Workflow) (ms : List Nat) (step_size : ℚ) : Bool :=
  ms.all (fun m => ([-step_size, step_size]).all (fun d =>
    decide (wf.fws.countP
      (fun fw => decide (fw.kind = FWKind.leps true (some m) (some d))) = 1))) &&
  decide (wf.fws.countP (fun fw => isDisplacedKind fw.kind) = 2 * ms.length) &&
  wf.fws.all (fun fw => !(isDisplacedKind fw.kind) ||
    (decide (fw.parents = [1]) && decide (2 ≤ fw.fw_id))) &&
  wf.fws.all (fun fw => !(decide (fw.fw_id = 1)) || isPhononKind fw.kind)

/-- Claim C7: for a duplicate-free non-empty user mode list and a positive
step size, the assembler builds exactly one displaced-static node per
`(mode, ±step_size)` pair — `2·|modes|` sibling nodes all depending only
on the phonon node, with no dependency edges among themselves. -/
theorem raman_wf_displaced (s : Structure) (ms : List Nat) (step_size : ℚ)
    (cmd : String) (dbf : Option String) (h1 : ms.Nodup) (h2 : 0 < step_size)
    (h3 : ms ≠ []) :
    displacedOk (get_wf_raman_spectra s (some ms) step_size cmd dbf) ms step_size = true := by
  have heff : effModes s (some ms) = ms := by
    cases ms with
    | nil => cases h3 rfl
    | cons a l => rfl
  have hne : ¬(-step_size = step_size) := by
    intro hcon
    have : -step_size < step_size := by linarith
    exact absurd hcon (ne_of_lt this)
  unfold displacedOk
  simp only [Bool.and_eq_true]
  refine ⟨⟨⟨?_, ?_⟩, ?_⟩, ?_⟩
  · rw [List.all_eq_true]
    intro m hm
    rw [List.all_eq_true]
    intro d hd
    rw [decide_eq_true_eq, get_wf_countP_tag, heff]
    have hd' : d = -step_size ∨ d = step_size := by
      rcases List.mem_cons.mp hd with rfl | hd2
      · exact Or.inl rfl
      · exact Or.inr (List.mem_singleton.mp hd2)
    exact ramanPairs_countP_mem ms step_size m d h1 hm hd' hne
  · rw [decide_eq_true_eq, get_wf_fws_eq, List.countP_append, List.countP_append,
      mkDisplacedFWs_countP_disp, heff, ramanPairs_length]
    simp [isDisplacedKind, List.countP_cons]
  · rw [List.all_eq_true]
    intro fw hmem
    rw [get_wf_fws_eq] at hmem
    rcases List.mem_append.mp hmem with hleft | hright
    · rcases List.mem_append.mp hleft with hpre | hdisp
      · rcases List.mem_cons.mp hpre with rfl | hpre2
        · simp [isDisplacedKind]
        · rcases List.mem_cons.mp hpre2 with rfl | habs
          · simp [isDisplacedKind]
          · cases habs
      · obtain ⟨⟨m, d, _, hk⟩, hpar, hid⟩ :=
          mem_mkDisplacedFWs s cmd dbf (ramanPairs (effModes s (some ms)) step_size) 2 fw hdisp
        simp [hk, hpar, hid, isDisplacedKind]
    · rcases List.mem_singleton.mp hright with rfl
      simp [isDisplacedKind]
  · rw [List.all_eq_true]
    intro fw hmem
    rw [get_wf_fws_eq] at hmem
    rcases List.mem_append.mp hmem with hleft | hright
    · rcases List.mem_append.mp hleft with hpre | hdisp
      · rcases List.mem_cons.mp hpre with rfl | hpre2
        · simp [isPhononKind]
        · rcases List.mem_cons.mp hpre2 with rfl | habs
          · simp [isPhononKind]
          · cases habs
      · obtain ⟨⟨m, d, _, hk⟩, hpar, hid⟩ :=
          mem_mkDisplacedFWs s cmd dbf (ramanPairs (effModes s (some ms)) step_size) 2 fw hdisp
        have h1' : ¬(fw.fw_id = 1) := by omega
        simp [h1']
    · rcases List.mem_singleton.mp hright with rfl
      have hne1 : ¬(2 + (ramanPairs (effModes s (some ms)) step_size).length = 1) := by omega
      simp [hne1]

/-- Witness for claim C7 at a one-atom structure with modes `[0, 2]` and
step size 1. -/
theorem raman_wf_displaced_witness :
    displacedOk (get_wf_raman_spectra ⟨1, "Si"⟩ (some [0, 2]) 1 "vasp" none) [0, 2] 1 =
      true :=
  raman_wf_displaced ⟨1, "Si"⟩ [0, 2] 1 "vasp" none (by decide) (by decide) (by decide)

/-- Claim C10: `modes = modes or range(3*len(structure))` treats an
explicitly empty modes collection exactly like an absent one — the empty
mode set is replaced by all `3N` mode indices, so the workflow assembled
from `modes = []` equals the default workflow, and (for a non-empty
structure) its analysis node has parents. -/
theorem raman_wf_empty_modes (s : Structure) (step_size : ℚ) (cmd : String)
    (dbf : Option String) :
    get_wf_raman_spectra s (some []) step_size cmd dbf =
        get_wf_raman_spectra s none step_size cmd dbf ∧
      (0 < s.natoms →
        (get_wf_raman_spectra s (some []) step_size cmd dbf).fws.all
          (fun fw => !(isAnalysisKind fw.kind) || !(fw.parents.isEmpty)) = true) := by
  constructor
  · rfl
  · intro hn
    rw [List.all_eq_true]
    intro fw hmem
    rw [get_wf_fws_eq] at hmem
    rcases List.mem_append.mp hmem with hleft | hright
    · rcases List.mem_append.mp hleft with hpre | hdisp
      · rcases List.mem_cons.mp hpre with rfl | hpre2
        · simp [isAnalysisKind]
        · rcases List.mem_cons.mp hpre2 with rfl | habs
          · simp [isAnalysisKind]
          · cases habs
      · obtain ⟨⟨m, d, _, hk⟩, _, _⟩ :=
          mem_mkDisplacedFWs s cmd dbf (ramanPairs (effModes s (some [])) step_size) 2 fw hdisp
        simp [hk, isAnalysisKind]
    · rcases List.mem_singleton.mp hright with rfl
      have hlen : (mkDisplacedFWs s cmd dbf (ramanPairs (effModes s (some [])) step_size)
          2).length = 2 * (3 * s.natoms) := by
        rw [mkDisplacedFWs_length, ramanPairs_length]
        have heff : effModes s (some []) = List.range (3 * s.natoms) := rfl
        rw [heff, List.length_range]
      have hne : ¬((mkDisplacedFWs s cmd dbf (ramanPairs (effModes s (some [])) step_size)
          2).map FW.fw_id).isEmpty = true := by
        intro hcon
        rw [List.isEmpty_iff] at hcon
        have hlen0 := congrArg List.length hcon
        rw [List.length_map, hlen, List.length_nil] at hlen0
        omega
      simp only [isAnalysisKind]
      rw [Bool.or_eq_true]
      exact Or.inr (by simp [hne])

/-- Witness for claim C10 at a one-atom structure. -/
theorem raman_wf_empty_modes_witness :
    get_wf_raman_spectra ⟨1, "Si"⟩ (some []) 1 "vasp" none =
        get_wf_raman_spectra ⟨1, "Si"⟩ none 1 "vasp" none ∧
      (get_wf_raman_spectra ⟨1, "Si"⟩ (some []) 1 "vasp" none).fws.all
        (fun fw => !(isAnalysisKind fw.kind) || !(fw.parents.isEmpty)) = true :=
  ⟨(raman_wf_empty_modes ⟨1, "Si"⟩ 1 "vasp" none).1,
    (raman_wf_empty_modes ⟨1, "Si"⟩ 1 "vasp" none).2 (by decide)⟩

end MatMethods
